import Mathlib

/-!
Verification of the PDF retrieval-augmented QA pipeline (`Pdfload.py`, `app.py`).

The Python source is shallowly embedded: page texts are `List Char`,
filenames and identifiers are `String`, embedding vectors are `List Int`
(the numeric values of the vectors play no role in any claim), and the
external services (embedding service, model listing, vector store, text
generation) are explicit functional parameters or state values.
-/

namespace PdfChatbot

/-- Python's `range(start, stop, step)` for a positive `step`, embedded with
explicit fuel.  Each iteration consumes one unit of fuel and advances `start`
by `step ≥ 1`, so fuel `stop - start` always suffices; `pyRange` below
supplies exactly that. -/
def rangeFrom (fuel start stop step : Nat) : List Nat :=
  match fuel with
  | 0 => []
  | f + 1 => if start < stop then start :: rangeFrom f (start + step) stop step else []

/-- `range(start, stop, step)` as used by the source (`step` is always positive there). -/
def pyRange (start stop step : Nat) : List Nat :=
  rangeFrom (stop - start) start stop step

/-- `chunk_size = 2000` (Pdfload.py line 107). -/
def chunk_size : Nat := 2000

/-- `overlap = 500` (Pdfload.py line 108). -/
def overlap : Nat := 500

/-- The per-page chunking loop of `load_and_chunk_pdfs` (Pdfload.py lines 110-111):
`for i in range(0, len(text), chunk_size - overlap): chunk = text[i:i + chunk_size]`. -/
def chunkPage (text : List Char) : List (List Char) :=
  (pyRange 0 text.length (chunk_size - overlap)).map
    (fun i => (text.drop i).take chunk_size)

/-- Ceiling-division step identity used to unfold one iteration of the range loop. -/
lemma ceil_div_step (d step : Nat) (hd : 0 < d) (hs : 0 < step) :
    (d + step - 1) / step = (d - step + step - 1) / step + 1 := by
  have h1 : d + step - 1 = (d - 1) + step := by omega
  rw [h1, Nat.add_div_right _ hs]
  rcases le_or_lt step d with h | h
  · have h2 : d - step + step - 1 = d - 1 := by omega
    rw [h2]
  · have h2 : d - step = 0 := by omega
    have h3 : d - 1 < step := by omega
    have h4 : step - 1 < step := by omega
    rw [h2, Nat.div_eq_of_lt h3]
    simp [Nat.div_eq_of_lt h4]

/-- The range loop enumerates the arithmetic progression
`start, start + step, …` of length `⌈(stop - start) / step⌉`. -/
lemma rangeFrom_eq_map_range (step : Nat) (hs : 0 < step) :
    ∀ (fuel start stop : Nat), stop - start ≤ fuel →
      rangeFrom fuel start stop step
        = (List.range ((stop - start + step - 1) / step)).map (fun k => start + step * k) := by
  intro fuel
  induction fuel with
  | zero =>
    intro start stop h
    have h0 : stop - start = 0 := by omega
    have h1 : (step - 1) / step = 0 := Nat.div_eq_of_lt (by omega)
    simp [rangeFrom, h0, h1]
  | succ f ih =>
    intro start stop h
    by_cases hlt : start < stop
    · have hd : 0 < stop - start := by omega
      have hstep : (stop - start + step - 1) / step
          = (stop - (start + step) + step - 1) / step + 1 := by
        have hc := ceil_div_step (stop - start) step hd hs
        have he : stop - start - step = stop - (start + step) := by omega
        rw [he] at hc
        exact hc
      have hih := ih (start + step) stop (by omega)
      have hfun : ((fun k => start + step * k) ∘ Nat.succ)
          = fun k => start + step + step * k := by
        funext k
        simp only [Function.comp_apply, Nat.succ_eq_add_one]
        ring
      simp only [rangeFrom, if_pos hlt, hih, hstep, List.range_succ_eq_map, List.map_cons,
        List.map_map, hfun, Nat.mul_zero, Nat.add_zero]
    · have h0 : stop - start = 0 := by omega
      have h1 : (step - 1) / step = 0 := Nat.div_eq_of_lt (by omega)
      simp [rangeFrom, hlt, h0, h1]

/-- `pyRange 0 stop step` is the progression `0, step, 2*step, …`. -/
lemma pyRange_zero_eq (stop step : Nat) (hs : 0 < step) :
    pyRange 0 stop step = (List.range ((stop + step - 1) / step)).map (fun k => step * k) := by
  unfold pyRange
  rw [rangeFrom_eq_map_range step hs (stop - 0) 0 stop (by omega)]
  simp

/-- The chunker emits the windows `text[1500*k : 1500*k + 2000]` for
`k = 0, …, ⌈L / 1500⌉ - 1`. -/
lemma chunkPage_eq (text : List Char) :
    chunkPage text = (List.range ((text.length + 1499) / 1500)).map
      (fun k => (text.drop (1500 * k)).take 2000) := by
  unfold chunkPage chunk_size overlap
  rw [show (2000 - 500 : Nat) = 1500 from rfl, pyRange_zero_eq _ 1500 (by omega)]
  rw [List.map_map]
  rfl

/-- Number of chunks produced from one page of length `L`: `⌈L / 1500⌉`. -/
lemma chunkPage_length (text : List Char) :
    (chunkPage text).length = (text.length + 1499) / 1500 := by
  rw [chunkPage_eq]
  simp

/-- The chunk count formula asserted by the specification:
`ceil(max(L - O, 1) / (T - O))` with `T = 2000`, `O = 500`. -/
def claimedChunkCount (L : Nat) : Nat :=
  (max (L - 500) 1 + 1499) / 1500

/-- C1 counterexample: a page of exactly 2000 characters (length `L ≤ T`) is
split into 2 chunks by the code, while the specification formula
`ceil(max(L-O,1)/(T-O))` demands exactly 1. -/
theorem c1_counterexample :
    (chunkPage (List.replicate 2000 'a')).length = 2
      ∧ claimedChunkCount (List.replicate 2000 'a').length = 1
      ∧ (chunkPage (List.replicate 2000 'a')).length
          ≠ claimedChunkCount (List.replicate 2000 'a').length := by
  have hlen : (List.replicate 2000 'a').length = 2000 := List.length_replicate 2000 'a'
  have h : (chunkPage (List.replicate 2000 'a')).length = 2 := by
    rw [chunkPage_length, hlen]
  have h2 : claimedChunkCount (List.replicate 2000 'a').length = 1 := by
    rw [hlen]
    norm_num [claimedChunkCount]
  exact ⟨h, h2, by rw [h, h2]; omega⟩

/-- C1 (amended): for every page text of length `L > 0` the chunker produces
exactly `⌈L / (T - O)⌉ = ⌈L / 1500⌉` chunks, and in particular exactly 1 chunk
whenever `L ≤ T - O = 1500`. -/
theorem c1_chunk_count (text : List Char) (h : 0 < text.length) :
    (chunkPage text).length = (text.length + 1499) / 1500
      ∧ (text.length ≤ 1500 → (chunkPage text).length = 1) := by
  refine ⟨chunkPage_length text, fun hle => ?_⟩
  rw [chunkPage_length]
  have h1 : text.length + 1499 = (text.length - 1) + 1500 := by omega
  rw [h1, Nat.add_div_right _ (by omega : (0:Nat) < 1500),
    Nat.div_eq_of_lt (by omega : text.length - 1 < 1500)]

/-- C1 witness: a 1000-character page yields exactly one chunk. -/
theorem c1_chunk_count_witness :
    (chunkPage (List.replicate 1000 'a')).length = 1 :=
  (c1_chunk_count (List.replicate 1000 'a')
      (by rw [List.length_replicate]; omega)).2
    (by rw [List.length_replicate]; omega)

/-- C2: the chunks of a page are exactly the substrings `text[i : i+2000]` for
window starts `i = 1500 * k`, `k = 0, 1, 2, …` while `i < L` (final chunk
possibly shorter); a page of exactly 2200 characters yields the two chunks
covering `[0:2000)` and `[1500:2200)`. -/
theorem c2_chunk_windows (text : List Char) :
    chunkPage text = (List.range ((text.length + 1499) / 1500)).map
        (fun k => (text.drop (1500 * k)).take 2000)
      ∧ (text.length = 2200 → chunkPage text = [text.take 2000, text.drop 1500]) := by
  refine ⟨chunkPage_eq text, fun h2200 => ?_⟩
  rw [chunkPage_eq, h2200]
  rw [show ((2200 + 1499) / 1500 : Nat) = 2 from by norm_num]
  rw [show (List.range 2 : List Nat) = [0, 1] from rfl]
  simp only [List.map_cons, List.map_nil, Nat.mul_zero, Nat.mul_one, List.drop_zero]
  congr 1
  congr 1
  apply List.take_of_length_le
  rw [List.length_drop, h2200]
  omega

/-- C2 witness: concrete 2200-character page. -/
theorem c2_chunk_windows_witness :
    chunkPage (List.replicate 2200 'a')
      = [(List.replicate 2200 'a').take 2000, (List.replicate 2200 'a').drop 1500] :=
  (c2_chunk_windows (List.replicate 2200 'a')).2 (by rw [List.length_replicate])

/-- C10: when `L > 1500` and `0 < L mod 1500 ≤ 500`, the window loop emits a
final chunk that is entirely contained in (a suffix of) the preceding chunk,
adding no new text. -/
theorem c10_trailing_chunk (text : List Char) (h1 : 1500 < text.length)
    (h2 : 0 < text.length % 1500) (h3 : text.length % 1500 ≤ 500) :
    ∃ pre p l, chunkPage text = pre ++ [p, l] ∧ List.IsSuffix l p := by
  have hc : (text.length + 1499) / 1500 = (text.length / 1500 - 1) + 1 + 1 := by omega
  refine ⟨(List.range (text.length / 1500 - 1)).map (fun k => (text.drop (1500 * k)).take 2000),
    (text.drop (1500 * (text.length / 1500 - 1))).take 2000,
    (text.drop (1500 * (text.length / 1500 - 1 + 1))).take 2000, ?_, ?_⟩
  · rw [chunkPage_eq, hc, List.range_succ, List.range_succ, List.map_append, List.map_append]
    simp [List.append_assoc]
  · have hp : (text.drop (1500 * (text.length / 1500 - 1))).take 2000
        = text.drop (1500 * (text.length / 1500 - 1)) := by
      apply List.take_of_length_le
      rw [List.length_drop]
      omega
    have hl : (text.drop (1500 * (text.length / 1500 - 1 + 1))).take 2000
        = text.drop (1500 * (text.length / 1500 - 1 + 1)) := by
      apply List.take_of_length_le
      rw [List.length_drop]
      omega
    rw [hp, hl]
    have ha : 1500 * (text.length / 1500 - 1 + 1) = 1500 * (text.length / 1500 - 1) + 1500 := by
      omega
    rw [ha, ← List.drop_drop]
    exact List.drop_suffix 1500 _

/-- C10 witness: a 1600-character page; the second chunk `text[1500:1600]` is a
suffix of the first chunk `text[0:1600]`. -/
theorem c10_trailing_chunk_witness :
    ∃ pre p l, chunkPage (List.replicate 1600 'a') = pre ++ [p, l] ∧ List.IsSuffix l p :=
  c10_trailing_chunk (List.replicate 1600 'a')
    (by rw [List.length_replicate]; omega)
    (by rw [List.length_replicate]; omega)
    (by rw [List.length_replicate]; omega)

/-- Metadata attached to each chunk (Pdfload.py line 113):
`{"source": filename, "page": page_num + 1}`. -/
structure PageMeta where
  source : String
  page : Nat
deriving DecidableEq

/-- One PDF file as observed by `load_and_chunk_pdfs`.  `pages` holds the
outcome of `page.extract_text()` for each page that was reached before any
exception (a page with no text is the empty list).  `failed` records whether
`PdfReader`/extraction then raised, in which case the source logs the error
and moves on to the next file (Pdfload.py lines 101, 116-117); pages reached
before the exception have already been appended. -/
structure PdfFile where
  filename : String
  pages : List (List Char)
  failed : Bool
deriving DecidableEq

/-- Chunks contributed by one file, in order: pages are enumerated 0-based
(`enumerate(reader.pages)`), pages with no text are skipped
(`if not text: continue`), and each page's windows carry the metadata
`{"source": filename, "page": page_num + 1}`. -/
def processFile (f : PdfFile) : List ((List Char) × PageMeta) :=
  f.pages.enum.flatMap (fun pt =>
    if pt.2 = [] then []
    else (chunkPage pt.2).map (fun c => (c, PageMeta.mk f.filename (pt.1 + 1))))

/-- All (chunk, metadata) appends of the ingest run, in file order. -/
def chunkEvents (files : List PdfFile) : List ((List Char) × PageMeta) :=
  files.flatMap processFile

/-- The accumulation of the three parallel lists `documents`, `metadatas`,
`ids`, threading the single global `id_counter` that is incremented once per
appended chunk (Pdfload.py lines 112-115). -/
def runLoop : List ((List Char) × PageMeta) → Nat →
    List (List Char) × List PageMeta × List String
  | [], _ => ([], [], [])
  | (c, m) :: rest, ctr =>
    let r := runLoop rest (ctr + 1)
    (c :: r.1, m :: r.2.1, ("doc_" ++ toString ctr) :: r.2.2)

/-- `load_and_chunk_pdfs` (Pdfload.py lines 82-119).  The directory walk is
I/O: its result (the list of PDF files found by `glob`) is the input.  An
empty glob result returns `None, None, None`, modelled as `none`; otherwise
the triple of parallel lists is built with the global counter starting at 0. -/
def load_and_chunk_pdfs (files : List PdfFile) :
    Option (List (List Char) × List PageMeta × List String) :=
  if files.isEmpty then none
  else some (runLoop (chunkEvents files) 0)

/-- The `__main__` orchestration (Pdfload.py lines 198-202): `setup_vector_db`
runs only under `if docs:`, i.e. only when the loader returned a non-`None`,
non-empty document list (`app.py` lines 40-47 repeat the same check). -/
def main_invokes_setup (files : List PdfFile) : Bool :=
  match load_and_chunk_pdfs files with
  | none => false
  | some (ds, _, _) => !ds.isEmpty

/-- The identifier component of `runLoop` is `doc_<ctr>, doc_<ctr+1>, …`. -/
lemma runLoop_ids (evs : List ((List Char) × PageMeta)) :
    ∀ ctr, (runLoop evs ctr).2.2
      = (List.range evs.length).map (fun i => "doc_" ++ toString (ctr + i)) := by
  induction evs with
  | nil => intro ctr; simp [runLoop]
  | cons e rest ih =>
    intro ctr
    obtain ⟨c, m⟩ := e
    have hfun : ((fun i => "doc_" ++ toString (ctr + i)) ∘ Nat.succ)
        = fun i => "doc_" ++ toString (ctr + 1 + i) := by
      funext i
      have : ctr + Nat.succ i = ctr + 1 + i := by omega
      rw [Function.comp_apply, this]
    simp only [runLoop, List.length_cons, List.range_succ_eq_map, List.map_cons,
      List.map_map, hfun, Nat.add_zero, ih (ctr + 1)]

/-- The three lists built by `runLoop` always have equal lengths. -/
lemma runLoop_lengths (evs : List ((List Char) × PageMeta)) :
    ∀ ctr, (runLoop evs ctr).1.length = evs.length
      ∧ (runLoop evs ctr).2.1.length = evs.length
      ∧ (runLoop evs ctr).2.2.length = evs.length := by
  induction evs with
  | nil => intro ctr; simp [runLoop]
  | cons e rest ih =>
    intro ctr
    obtain ⟨c, m⟩ := e
    simp only [runLoop, List.length_cons]
    exact ⟨by rw [(ih (ctr + 1)).1], by rw [(ih (ctr + 1)).2.1], by rw [(ih (ctr + 1)).2.2]⟩

/-- C3: whatever the ingest run returns, the identifier list is exactly
`doc_0, doc_1, …, doc_{n-1}` in order (`n` the number of documents), a
contiguous 0-based sequence from the single global counter, and the three
returned lists are parallel — regardless of which files failed to parse. -/
theorem c3_sequential_ids (files : List PdfFile)
    (ds : List (List Char)) (ms : List PageMeta) (ids : List String)
    (h : load_and_chunk_pdfs files = some (ds, ms, ids)) :
    ids = (List.range ds.length).map (fun i => "doc_" ++ toString i)
      ∧ ids.length = ds.length ∧ ms.length = ds.length := by
  unfold load_and_chunk_pdfs at h
  by_cases hne : files.isEmpty
  · rw [if_pos hne] at h
    exact absurd h (by simp)
  · rw [if_neg hne, Option.some_inj] at h
    have hids := runLoop_ids (chunkEvents files) 0
    have hlen := runLoop_lengths (chunkEvents files) 0
    rw [h] at hids hlen
    simp only at hids hlen
    refine ⟨?_, by omega, by omega⟩
    rw [hids, hlen.1]
    simp

/-- C3 witness: two parsed files (one chunk each) around a file that failed
at open; identifiers are `doc_0, doc_1`. -/
theorem c3_sequential_ids_witness :
    (["doc_0", "doc_1"] : List String)
        = (List.range ([['a', 'b'], ['c', 'd']] : List (List Char)).length).map
            (fun i => "doc_" ++ toString i)
      ∧ (["doc_0", "doc_1"] : List String).length
          = ([['a', 'b'], ['c', 'd']] : List (List Char)).length
      ∧ ([⟨"a.pdf", 1⟩, ⟨"c.pdf", 1⟩] : List PageMeta).length
          = ([['a', 'b'], ['c', 'd']] : List (List Char)).length :=
  c3_sequential_ids
    [⟨"a.pdf", [['a', 'b']], false⟩, ⟨"bad.pdf", [], true⟩, ⟨"c.pdf", [['c', 'd']], false⟩]
    [['a', 'b'], ['c', 'd']] [⟨"a.pdf", 1⟩, ⟨"c.pdf", 1⟩] ["doc_0", "doc_1"]
    (by decide)

/-- C9: chunking is deterministic — two ingest runs over identical file
contents return identical chunk texts, metadata and identifiers. -/
theorem c9_deterministic (files1 files2 : List PdfFile) (h : files1 = files2) :
    load_and_chunk_pdfs files1 = load_and_chunk_pdfs files2 := by
  rw [h]

/-- C9 witness. -/
theorem c9_deterministic_witness :
    load_and_chunk_pdfs [⟨"a.pdf", [['x']], false⟩]
      = load_and_chunk_pdfs [⟨"a.pdf", [['x']], false⟩] :=
  c9_deterministic _ _ rfl

/-- C5: with zero PDF files, or zero pages yielding text, the loader returns a
non-exceptional empty result (`none` for the empty glob, otherwise the empty
triple), and the orchestrator does not invoke the index rebuild step. -/
theorem c5_no_content (files : List PdfFile)
    (h : files = [] ∨ ∀ f ∈ files, ∀ p ∈ f.pages, p = []) :
    (load_and_chunk_pdfs files = none ∨ load_and_chunk_pdfs files = some ([], [], []))
      ∧ main_invokes_setup files = false := by
  rcases h with h | h
  · subst h
    refine ⟨Or.inl rfl, rfl⟩
  · have hev : chunkEvents files = [] := by
      unfold chunkEvents
      rw [List.flatMap_eq_nil_iff]
      intro f hf
      unfold processFile
      rw [List.flatMap_eq_nil_iff]
      intro pt hpt
      have hp : pt.2 ∈ f.pages := by
        have := List.snd_mem_of_mem_enum (l := f.pages) hpt
        exact this
      rw [if_pos (h f hf pt.2 hp)]
    by_cases hne : files.isEmpty
    · refine ⟨Or.inl ?_, ?_⟩ <;> simp [load_and_chunk_pdfs, hne, main_invokes_setup]
    · have hload : load_and_chunk_pdfs files = some ([], [], []) := by
        unfold load_and_chunk_pdfs
        rw [if_neg hne, hev]
        rfl
      refine ⟨Or.inr hload, ?_⟩
      unfold main_invokes_setup
      rw [hload]
      rfl

/-- C5 witness: one file whose single page yields no text. -/
theorem c5_no_content_witness :
    (load_and_chunk_pdfs [⟨"a.pdf", [[]], false⟩] = none
        ∨ load_and_chunk_pdfs [⟨"a.pdf", [[]], false⟩] = some ([], [], []))
      ∧ main_invokes_setup [⟨"a.pdf", [[]], false⟩] = false :=
  c5_no_content [⟨"a.pdf", [[]], false⟩] (Or.inr (by simp))

/-- Python's substring test `needle in hay`. -/
def occursIn (needle : List Char) : List Char → Bool
  | [] => needle.isEmpty
  | c :: rest => needle.isPrefixOf (c :: rest) || occursIn needle rest

/-- The fallback filter of `get_best_available_model` (Pdfload.py line 52):
`"gemini" in model and "embedding" not in model and "vision" not in model`. -/
def isGenerativeName (m : String) : Bool :=
  occursIn "gemini".toList m.toList
    && !occursIn "embedding".toList m.toList
    && !occursIn "vision".toList m.toList

/-- The fixed ordered preference list (Pdfload.py lines 34-42). -/
def priority_list : List String :=
  ["models/gemini-1.5-flash",
   "models/gemini-1.5-flash-001",
   "models/gemini-1.5-flash-002",
   "models/gemini-1.5-pro",
   "models/gemini-1.5-pro-001",
   "models/gemini-1.5-pro-002",
   "models/gemini-1.0-pro"]

/-- `get_best_available_model` (Pdfload.py lines 23-61).  The external
`client.models.list()` call is the input: `none` models the call raising an
exception (the `except` branch), `some ms` a successful listing.  First
preference-list hit wins; otherwise the first listed model passing the
gemini/embedding/vision filter; otherwise the hardcoded default. -/
def get_best_available_model (listing : Option (List String)) : String :=
  match listing with
  | none => "gemini-1.5-pro"
  | some my_models =>
    match priority_list.find? (fun m => my_models.contains m) with
    | some m => m
    | none =>
      match my_models.find? isGenerativeName with
      | some m => m
      | none => "gemini-1.5-pro"

/-- `CURRENT_MODEL = get_best_available_model()` (Pdfload.py line 65): the
selection runs once at startup; every later generation call reads this value. -/
def CURRENT_MODEL (listing : Option (List String)) : String :=
  get_best_available_model listing

/-- `find?` returns the element at the first index satisfying the predicate. -/
lemma find?_first {α : Type} (p : α → Bool) :
    ∀ (l : List α) (i : Nat) (hi : i < l.length),
      p (l.get ⟨i, hi⟩) = true →
      (∀ j (hj : j < l.length), j < i → p (l.get ⟨j, hj⟩) = false) →
      l.find? p = some (l.get ⟨i, hi⟩) := by
  intro l
  induction l with
  | nil => intro i hi; simp at hi
  | cons a tl ih =>
    intro i hi hp hbefore
    match i with
    | 0 =>
      simp only [List.get] at hp
      simp [List.find?_cons, hp]
    | i' + 1 =>
      have ha : p a = false := by
        have := hbefore 0 (by simp) (by omega)
        simpa using this
      simp only [List.find?_cons, ha]
      have hi' : i' < tl.length := by
        simp only [List.length_cons] at hi
        omega
      have hp' : p (tl.get ⟨i', hi'⟩) = true := hp
      refine ih i' hi' hp' ?_
      intro j hj hjlt
      have := hbefore (j + 1) (by simp only [List.length_cons]; omega) (by omega)
      exact this

/-- C6: model selection returns the first preference-list member present in
the listing; failing that, the first listed model whose name contains
"gemini" but neither "embedding" nor "vision"; and when the listing call
raises it returns the hardcoded `"gemini-1.5-pro"` (value used as
`CURRENT_MODEL` by every generation call). -/
theorem c6_model_selection :
    CURRENT_MODEL none = "gemini-1.5-pro"
      ∧ (∀ (ms : List String) (i : Nat) (hi : i < priority_list.length),
          priority_list.get ⟨i, hi⟩ ∈ ms →
          (∀ j (hj : j < priority_list.length), j < i → priority_list.get ⟨j, hj⟩ ∉ ms) →
          CURRENT_MODEL (some ms) = priority_list.get ⟨i, hi⟩)
      ∧ (∀ (ms : List String), (∀ m ∈ priority_list, m ∉ ms) →
          ∀ (i : Nat) (hi : i < ms.length),
          isGenerativeName (ms.get ⟨i, hi⟩) = true →
          (∀ j (hj : j < ms.length), j < i → isGenerativeName (ms.get ⟨j, hj⟩) = false) →
          CURRENT_MODEL (some ms) = ms.get ⟨i, hi⟩) := by
  refine ⟨rfl, ?_, ?_⟩
  · intro ms i hi hmem hbefore
    have hfind : priority_list.find? (fun m => ms.contains m)
        = some (priority_list.get ⟨i, hi⟩) := by
      apply find?_first
      · simpa [List.contains, List.elem_iff] using hmem
      · intro j hj hjlt
        simpa [List.contains, List.elem_iff] using hbefore j hj hjlt
    simp only [CURRENT_MODEL, get_best_available_model, hfind]
  · intro ms hnone i hi hp hbefore
    have hfind1 : priority_list.find? (fun m => ms.contains m) = none := by
      rw [List.find?_eq_none]
      intro x hx
      simpa [List.contains, List.elem_iff] using hnone x hx
    have hfind2 : ms.find? isGenerativeName = some (ms.get ⟨i, hi⟩) :=
      find?_first isGenerativeName ms i hi hp hbefore
    simp only [CURRENT_MODEL, get_best_available_model, hfind1, hfind2]

/-- C6 witness: a listing offering the second preference entry plus noise
selects that entry. -/
theorem c6_model_selection_witness :
    CURRENT_MODEL (some ["other", "models/gemini-1.5-flash-001"])
      = "models/gemini-1.5-flash-001" := by
  have h := c6_model_selection.2.1 ["other", "models/gemini-1.5-flash-001"] 1
    (by decide) (by decide) (by decide)
  exact h

/-- `get_gemini_embedding` (Pdfload.py lines 70-79).  `svc` models the
`client.models.embed_content` call: `some v` is a successful reply with vector
`v`, `none` an exception.  On failure the function prints a warning and
returns the empty list. -/
def get_gemini_embedding (svc : List Char → Option (List Int)) (text : List Char) :
    List Int :=
  match svc text with
  | some v => v
  | none => []

/-- `batch_size = 10` (Pdfload.py line 133). -/
def batch_size : Nat := 10

/-- The embedding loop of `setup_vector_db` (Pdfload.py lines 135-140):
`for i in range(0, len(documents), batch_size): for doc in documents[i:i+batch_size]:
embeddings.append(get_gemini_embedding(doc))`. -/
def embedBatches (svc : List Char → Option (List Int)) (documents : List (List Char)) :
    List (List Int) :=
  (pyRange 0 documents.length batch_size).flatMap
    (fun i => ((documents.drop i).take batch_size).map (get_gemini_embedding svc))

/-- Walking a list in stride-`s` slices visits every element once, in order. -/
lemma rangeFrom_flatMap_slices {α β : Type} (f : α → β) (s : Nat) (hs : 0 < s) :
    ∀ (fuel start : Nat) (l : List α), l.length - start ≤ fuel →
      (rangeFrom fuel start l.length s).flatMap (fun i => ((l.drop i).take s).map f)
        = (l.drop start).map f := by
  intro fuel
  induction fuel with
  | zero =>
    intro start l h
    have hle : l.length ≤ start := by omega
    simp [rangeFrom, List.drop_eq_nil_of_le hle]
  | succ fu ih =>
    intro start l h
    by_cases hlt : start < l.length
    · simp only [rangeFrom, if_pos hlt, List.flatMap_cons]
      rw [ih (start + s) l (by omega)]
      have hdd : l.drop (start + s) = (l.drop start).drop s := (List.drop_drop s start l).symm
      rw [hdd, ← List.map_append, List.take_append_drop]
    · have hle : l.length ≤ start := by omega
      simp [rangeFrom, hlt, List.drop_eq_nil_of_le hle]

/-- The batched loop embeds each document once, in input order. -/
lemma embedBatches_eq_map (svc : List Char → Option (List Int))
    (documents : List (List Char)) :
    embedBatches svc documents = documents.map (get_gemini_embedding svc) := by
  unfold embedBatches pyRange
  rw [rangeFrom_flatMap_slices (get_gemini_embedding svc) batch_size (by decide)
    (documents.length - 0) 0 documents (by omega)]
  simp

/-- One named collection of the vector store: the four parallel sequences
passed to `collection.add`. -/
structure Collection where
  ids : List String
  embeddings : List (List Int)
  documents : List (List Char)
  metadatas : List PageMeta
deriving DecidableEq

/-- The persistent chroma store: named collections. -/
abbrev Store := List (String × Collection)

/-- `collection_name = "my_pdf_knowledge_base"` (Pdfload.py line 123). -/
def collection_name : String := "my_pdf_knowledge_base"

/-- `chroma_client.delete_collection(name)`: removes the named collection,
raising if it does not exist. -/
def delete_collection (st : Store) (nm : String) : Except String Store :=
  if st.any (fun p => p.1 == nm) then Except.ok (st.filter (fun p => p.1 != nm))
  else Except.error "collection does not exist"

/-- `chroma_client.create_collection(name)`: creates a fresh empty collection,
raising if one of that name already exists. -/
def create_collection (st : Store) (nm : String) : Except String (Store × Collection) :=
  if st.any (fun p => p.1 == nm) then Except.error "collection already exists"
  else Except.ok (st ++ [(nm, ⟨[], [], [], []⟩)], ⟨[], [], [], []⟩)

/-- `collection.add(...)`: appends the four parallel sequences to a collection. -/
def collAdd (c : Collection) (ids : List String) (embs : List (List Int))
    (docs : List (List Char)) (metas : List PageMeta) : Collection :=
  ⟨c.ids ++ ids, c.embeddings ++ embs, c.documents ++ docs, c.metadatas ++ metas⟩

/-- Effect of `collection.add` on the store entry the handle refers to. -/
def storeAdd (st : Store) (nm : String) (ids : List String) (embs : List (List Int))
    (docs : List (List Char)) (metas : List PageMeta) : Store :=
  st.map (fun p => if p.1 == nm then (p.1, collAdd p.2 ids embs docs metas) else p)

/-- `setup_vector_db` (Pdfload.py lines 122-144): try to delete the fixed-name
collection, swallowing any error (`try/except: pass`); create it fresh; embed
all documents in batches of 10; add everything; return the collection. -/
def setup_vector_db (svc : List Char → Option (List Int)) (st : Store)
    (documents : List (List Char)) (metadatas : List PageMeta) (ids : List String) :
    Except String (Store × Collection) :=
  let st1 := match delete_collection st collection_name with
    | Except.ok s => s
    | Except.error _ => st
  match create_collection st1 collection_name with
  | Except.error e => Except.error e
  | Except.ok (st2, col) =>
    let embeddings := embedBatches svc documents
    Except.ok (storeAdd st2 collection_name ids embeddings documents metadatas,
      collAdd col ids embeddings documents metadatas)

/-- A store purged of name `nm` answers `any (· == nm)` with `false`. -/
lemma filtered_any_false (st : Store) (nm : String) :
    (st.filter (fun p => p.1 != nm)).any (fun p => p.1 == nm) = false := by
  rw [List.any_eq_false]
  intro x hx
  have h2 := (List.mem_filter.mp hx).2
  rw [bne_iff_ne] at h2
  simp only [beq_iff_eq]
  exact h2

/-- Full behaviour of `setup_vector_db`: it always succeeds and leaves the
store holding the fixed-name collection with exactly the new content, every
other collection untouched, whether or not the name existed before. -/
lemma setup_vector_db_eq (svc : List Char → Option (List Int)) (st : Store)
    (docs : List (List Char)) (metas : List PageMeta) (ids : List String) :
    setup_vector_db svc st docs metas ids
      = Except.ok
          (st.filter (fun p => p.1 != collection_name)
             ++ [(collection_name, ⟨ids, embedBatches svc docs, docs, metas⟩)],
           (⟨ids, embedBatches svc docs, docs, metas⟩ : Collection)) := by
  unfold setup_vector_db
  have hst1 : (match delete_collection st collection_name with
      | Except.ok s => s
      | Except.error _ => st)
      = st.filter (fun p => p.1 != collection_name) := by
    unfold delete_collection
    by_cases hany : st.any (fun p => p.1 == collection_name)
    · rw [if_pos hany]
    · rw [if_neg hany]
      symm
      rw [List.filter_eq_self]
      intro a ha
      have h2 := List.any_eq_false.mp (eq_false_of_ne_true hany) a ha
      rw [bne_iff_ne]
      intro hcontra
      exact h2 (beq_iff_eq.mpr hcontra)
  rw [hst1]
  have hcreate : create_collection (st.filter (fun p => p.1 != collection_name))
      collection_name
      = Except.ok ((st.filter (fun p => p.1 != collection_name))
          ++ [(collection_name, ⟨[], [], [], []⟩)], (⟨[], [], [], []⟩ : Collection)) := by
    unfold create_collection
    rw [if_neg (by rw [filtered_any_false]; exact Bool.false_ne_true)]
  simp only [hcreate]
  have hmap : storeAdd ((st.filter (fun p => p.1 != collection_name))
        ++ [(collection_name, ⟨[], [], [], []⟩)]) collection_name
        ids (embedBatches svc docs) docs metas
      = (st.filter (fun p => p.1 != collection_name))
        ++ [(collection_name, ⟨ids, embedBatches svc docs, docs, metas⟩)] := by
    unfold storeAdd
    rw [List.map_append]
    congr 1
    · conv_rhs => rw [← List.map_id (st.filter (fun p => p.1 != collection_name))]
      apply List.map_congr_left
      intro a ha
      have h2 := (List.mem_filter.mp ha).2
      rw [bne_iff_ne] at h2
      have h3 : (a.1 == collection_name) = false := by
        rw [← Bool.not_eq_true]
        intro hcontra
        exact h2 (beq_iff_eq.mp hcontra)
      simp [h3]
  rw [hmap]
  simp [collAdd]

/-- C8: every call to `setup_vector_db` first drops any existing collection of
the fixed name — with no error whether or not it exists — and then creates and
populates a fresh collection: the resulting store maps the fixed name to
exactly the new content (full replace, never incremental), and the call
returns without error for every prior store state. -/
theorem c8_full_replace (svc : List Char → Option (List Int)) (st : Store)
    (docs : List (List Char)) (metas : List PageMeta) (ids : List String) :
    setup_vector_db svc st docs metas ids
      = Except.ok
          (st.filter (fun p => p.1 != collection_name)
             ++ [(collection_name, ⟨ids, embedBatches svc docs, docs, metas⟩)],
           (⟨ids, embedBatches svc docs, docs, metas⟩ : Collection)) :=
  setup_vector_db_eq svc st docs metas ids

/-- C4: when the embedding service fails on one text, `get_gemini_embedding`
yields the empty vector instead of raising, so `setup_vector_db` still
completes: one embedding per document, the empty vector exactly at the failed
position, the service vector at every successful position. -/
theorem c4_embedding_failure (svc : List Char → Option (List Int)) (st : Store)
    (docs : List (List Char)) (metas : List PageMeta) (ids : List String)
    (j : Nat) (d : List Char) (hj : docs[j]? = some d) (hfail : svc d = none) :
    ∃ st2 col, setup_vector_db svc st docs metas ids = Except.ok (st2, col)
      ∧ col.embeddings.length = docs.length
      ∧ col.embeddings[j]? = some []
      ∧ (∀ (k : Nat) (e : List Char) (v : List Int),
          docs[k]? = some e → svc e = some v → col.embeddings[k]? = some v) := by
  refine ⟨_, _, setup_vector_db_eq svc st docs metas ids, ?_, ?_, ?_⟩
  · show (embedBatches svc docs).length = docs.length
    rw [embedBatches_eq_map, List.length_map]
  · show (embedBatches svc docs)[j]? = some []
    rw [embedBatches_eq_map, List.getElem?_map, hj]
    simp [get_gemini_embedding, hfail]
  · intro k e v hk hsvc
    show (embedBatches svc docs)[k]? = some v
    rw [embedBatches_eq_map, List.getElem?_map, hk]
    simp [get_gemini_embedding, hsvc]

/-- C4 witness: of three documents the middle one fails to embed; setup still
returns, records `[]` at position 1 and the service vectors elsewhere. -/
theorem c4_embedding_failure_witness :
    ∃ st2 col,
      setup_vector_db (fun t => if t = ['a'] then none else some [1]) []
          [['b'], ['a'], ['c']] [⟨"f.pdf", 1⟩, ⟨"f.pdf", 1⟩, ⟨"f.pdf", 1⟩]
          ["doc_0", "doc_1", "doc_2"]
        = Except.ok (st2, col)
      ∧ col.embeddings.length = ([['b'], ['a'], ['c']] : List (List Char)).length
      ∧ col.embeddings[1]? = some []
      ∧ (∀ (k : Nat) (e : List Char) (v : List Int),
          ([['b'], ['a'], ['c']] : List (List Char))[k]? = some e
          → (fun t => if t = ['a'] then none else some [1]) e = some v
          → col.embeddings[k]? = some v) :=
  c4_embedding_failure (fun t => if t = ['a'] then none else some [1]) []
    [['b'], ['a'], ['c']] [⟨"f.pdf", 1⟩, ⟨"f.pdf", 1⟩, ⟨"f.pdf", 1⟩]
    ["doc_0", "doc_1", "doc_2"] 1 ['a'] (by decide) (by decide)

/-- One retrieved chunk formatted for the context block (Pdfload.py lines
162-164): `Content: {doc}\nReference: [Source: {source}, Page: {page}]\n\n`. -/
def formatHit (doc : List Char) (m : PageMeta) : List Char :=
  "Content: ".toList ++ doc ++ "\nReference: [Source: ".toList ++ m.source.toList
    ++ ", Page: ".toList ++ (toString m.page).toList ++ "]\n\n".toList

/-- The accumulating `context_text += …` loop over the retrieved documents and
their position-matched metadata (Pdfload.py lines 158-164). -/
def ctxLoop (acc : List Char) : List ((List Char) × PageMeta) → List Char
  | [] => acc
  | (d, m) :: rest => ctxLoop (acc ++ formatHit d m) rest

/-- Steps 1-3 of `query_rag_system` (Pdfload.py lines 147-164): embed the
question, query the collection with `n_results=3`, and build the context
string.  `idx` models `collection.query`, returning the parallel lists
`results['documents'][0]` and `results['metadatas'][0]` for a query embedding
and a result count; the source pairs them by position (`retrieved_meta[i]`),
modelled with `zip`. -/
def rag_context (svc : List Char → Option (List Int))
    (idx : List Int → Nat → List (List Char) × List PageMeta)
    (question : List Char) : List Char :=
  let query_embedding := get_gemini_embedding svc question
  let results := idx query_embedding 3
  ctxLoop [] (results.1.zip results.2)

/-- The fixed prompt template of `query_rag_system` (Pdfload.py lines 167-180). -/
def promptFor (context question : List Char) : List Char :=
  ("\n    You are a helpful assistant. Use the following Retrieved Context "
      ++ "to answer the user's question.\n\n    --- RETRIEVED CONTEXT ---\n    ").toList
    ++ context
    ++ "\n    -------------------------\n\n    USER QUESTION: ".toList
    ++ question
    ++ ("\n\n    INSTRUCTIONS:\n    1. Answer only based on the context above.\n"
      ++ "    2. If the answer is not in the context, say \"I don't know based on "
      ++ "the documents.\"\n    3. Cite the 'Reference' (Source and Page) for every "
      ++ "fact you state.\n    ").toList

/-- `query_rag_system` end to end (Pdfload.py lines 147-188): the generation
service (`client.models.generate_content`) is called with the startup-selected
`CURRENT_MODEL` and the assembled prompt, and its text reply is returned
verbatim. -/
def query_rag_system (listing : Option (List String))
    (svc : List Char → Option (List Int))
    (idx : List Int → Nat → List (List Char) × List PageMeta)
    (genSvc : String → List Char → String)
    (question : List Char) : String :=
  genSvc (CURRENT_MODEL listing) (promptFor (rag_context svc idx question) question)

/-- The accumulating loop concatenates the formatted blocks in order. -/
lemma ctxLoop_eq (l : List ((List Char) × PageMeta)) :
    ∀ acc, ctxLoop acc l = acc ++ (l.map (fun dm => formatHit dm.1 dm.2)).flatten := by
  induction l with
  | nil => intro acc; simp [ctxLoop]
  | cons e rest ih =>
    intro acc
    obtain ⟨d, m⟩ := e
    rw [show ctxLoop acc ((d, m) :: rest) = ctxLoop (acc ++ formatHit d m) rest from rfl,
      ih (acc ++ formatHit d m)]
    simp [List.append_assoc]

/-- C7: for every question the retriever embeds the question, asks the index
for the top 3 nearest chunks, renders each as a `Content:` line followed by a
`Reference: [Source: …, Page: …]` line, and concatenates the blocks in the
returned (nearest-first) order — every returned chunk is included, with no
similarity-threshold filtering. -/
theorem c7_context_format (svc : List Char → Option (List Int))
    (idx : List Int → Nat → List (List Char) × List PageMeta)
    (question : List Char) :
    rag_context svc idx question
      = (((idx (get_gemini_embedding svc question) 3).1.zip
            (idx (get_gemini_embedding svc question) 3).2).map
          (fun dm => "Content: ".toList ++ dm.1 ++ "\nReference: [Source: ".toList
            ++ dm.2.source.toList ++ ", Page: ".toList ++ (toString dm.2.page).toList
            ++ "]\n\n".toList)).flatten := by
  unfold rag_context
  rw [ctxLoop_eq]
  simp [formatHit]

end PdfChatbot
